import Mathlib

/-! midi2input: the host side of the handler contract.

A shallow embedding of `src/midi2input.cpp`.  The program is glue around
three outside parties: the Lua interpreter, the MIDI backends and the
operating system.  Each of them appears here in two ways:

* what it *answers* is a field of `World` (can this path be opened, does
  the handler call fail, does the backend open as valid, ...);
* what the program *does to it* is recorded, in program order, as a list
  of `Effect`s.

The functions of the source are total functions from the inputs and the
world to a result, a new interpreter state and the effects performed.
-/

namespace Midi2Input

/-! ## Interpreter values and the interpreter stack -/

/-- A Lua value that is not a table. -/
inductive Scalar where
  | nil
  | number (n : Int)
  | str (s : String)
  | function (name : String)
  deriving DecidableEq, Repr

/-- A Lua value.  A table is given by its array part (keys `1, 2, ...`);
that is all `lua_midi_send` ever reads of it. -/
inductive LuaValue where
  | val (v : Scalar)
  | table (arr : List Scalar)
  deriving DecidableEq, Repr

/-- The interpreter state the host code sees: the value stack, top first
(the head is index `-1`), and the global variables. -/
structure lua_State where
  stack : List LuaValue
  globals : List (String × LuaValue)
  deriving DecidableEq, Repr

/-- Value at a negative ("from the top") stack index: `-1` is the top. -/
def index2value (L : lua_State) (idx : Int) : Option LuaValue :=
  if idx < 0 then L.stack.get? ((-idx).toNat - 1) else none

/-- Lua API `lua_pushnumber`. -/
def lua_pushnumber (L : lua_State) (n : Int) : lua_State :=
  { L with stack := LuaValue.val (Scalar.number n) :: L.stack }

/-- Lua API `lua_pop(L, n)`. -/
def lua_pop (L : lua_State) (n : Nat) : lua_State :=
  { L with stack := L.stack.drop n }

/-- Raw read of an array slot: `t[k]`, `nil` when the slot is not there. -/
def rawgeti (arr : List Scalar) (k : Int) : Scalar :=
  if 1 ≤ k then (arr.get? (k.toNat - 1)).getD Scalar.nil else Scalar.nil

/-- Lua API `lua_gettable(L, idx)`: pops the key from the top and pushes `t[key]`,
where `t` is the value at `idx` (taken before the pop).  Indexing something
that is not a table raises a Lua error. -/
def lua_gettable (L : lua_State) (idx : Int) : Except String lua_State :=
  match L.stack, index2value L idx with
  | key :: rest, some (LuaValue.table arr) =>
    match key with
    | LuaValue.val (Scalar.number k) =>
      Except.ok { L with stack := LuaValue.val (rawgeti arr k) :: rest }
    | _ => Except.ok { L with stack := LuaValue.val Scalar.nil :: rest }
  | _, _ => Except.error "attempt to index a non-table value"

/-- Lua API `luaL_checknumber(L, idx)`: the number at `idx`; a string that reads as
a number is accepted as that number; anything else raises a Lua error. -/
def luaL_checknumber (L : lua_State) (idx : Int) : Except String Int :=
  match index2value L idx with
  | some (LuaValue.val (Scalar.number n)) => Except.ok n
  | some (LuaValue.val (Scalar.str s)) =>
    match s.toInt? with
    | some n => Except.ok n
    | none => Except.error "number expected"
  | _ => Except.error "number expected"

/-- Lua API `lua_tostring(L, idx)` as used for log messages. -/
def lua_tostring (L : lua_State) (idx : Int) : String :=
  match index2value L idx with
  | some (LuaValue.val (Scalar.str s)) => s
  | some (LuaValue.val (Scalar.number n)) => toString n
  | _ => ""

/-- Lua API `lua_getglobal(L, name)`: pushes the value of the global, `nil` when
it was never set. -/
def lua_getglobal (L : lua_State) (name : String) : lua_State :=
  { L with stack := ((L.globals.lookup name).getD (LuaValue.val Scalar.nil)) :: L.stack }

/-- Lua API `lua_setglobal(L, name)` after `lua_pushcfunction`: binds the global. -/
def lua_setglobal (L : lua_State) (name : String) (v : LuaValue) : lua_State :=
  { L with globals := (name, v) :: L.globals }

/-! ## Events, backends, effects -/

/-- The 3-byte MIDI message (`midi_event` of `midi.h`), indexed `0..2`. -/
structure midi_event where
  b0 : Nat
  b1 : Nat
  b2 : Nat
  deriving DecidableEq, Repr

/-- The read `event[i]`. -/
def midi_event.get (e : midi_event) (i : Nat) : Nat :=
  match i with
  | 0 => e.b0
  | 1 => e.b1
  | _ => e.b2

/-- The assignment `event[i] = v`. -/
def midi_event.set (e : midi_event) (i : Nat) (v : Nat) : midi_event :=
  match i with
  | 0 => { e with b0 := v }
  | 1 => { e with b1 := v }
  | _ => { e with b2 := v }

/-- The conversion `static_cast<unsigned char>` of a Lua number with an integral value.
For `0..255` it is the value itself; outside that range the C++ conversion
is not defined and the embedding wraps modulo 256. -/
def to_uchar (n : Int) : Nat := (n % 256).toNat

/-- The two MIDI transports. -/
inductive Backend where
  | alsa
  | jack
  deriving DecidableEq, Repr

/-- What the host code reads of a backend singleton: its `valid` flag. -/
structure backend_singleton where
  valid : Bool
  deriving DecidableEq, Repr

/-- Compile-time switches `WITH_ALSA`, `WITH_JACK`, `WITH_XORG`. -/
structure Build where
  with_alsa : Bool
  with_jack : Bool
  with_xorg : Bool
  deriving DecidableEq, Repr

/-- Log severities used by the source. -/
inductive Level where
  | INFO
  | ERROR
  | FATAL
  deriving DecidableEq, Repr

/-- Everything the program does to the outside, one constructor per kind
of call.  `log` is `LOG( lvl ) << ...` of text; `log_buff` is the same of a
`char` buffer filled from a pipe, given by the bytes written. -/
inductive Effect where
  | log (lvl : Level) (msg : String)
  | log_buff (lvl : Level) (bytes : List Nat)
  | backend_send (b : Backend) (e : midi_event)
  | pcall (f : LuaValue) (args : List LuaValue)
  | popen (cmd : String)
  | pclose (cmd : String)
  | ifstream_open (path : String)
  | loadfile (path : String)
  | get_instance (b : Backend)
  | set_eventProcessor (b : Backend)
  | backend_recv (b : Backend)
  | x11_initialise
  | detect_window
  | sleep (secs : Nat)
  | lua_close
  deriving DecidableEq, Repr

/-! ## `lua_midi_send` -/

/-- The `for( int i = 0; i < 3; ++i )` loop of `lua_midi_send`; `n` counts
the iterations still to run, `i` is the loop variable. -/
def read_event_loop : Nat → Nat → lua_State → midi_event → Except String (lua_State × midi_event)
  | 0, _, L, event => Except.ok (L, event)
  | n + 1, i, L, event =>
    match lua_gettable (lua_pushnumber L (i + 1)) (-2) with
    | Except.error msg => Except.error msg
    | Except.ok L1 =>
      match luaL_checknumber L1 (-1) with
      | Except.error msg => Except.error msg
      | Except.ok x => read_event_loop n (i + 1) (lua_pop L1 1) (event.set i (to_uchar x))

/-- The guarded send of one backend: `if( ptr ) if( ptr->valid ) ptr->midi_send( event )`,
present in the program only when the backend is compiled in. -/
def guarded_send (compiled : Bool) (b : Backend) (ptr : Option backend_singleton)
    (event : midi_event) : List Effect :=
  if compiled then
    match ptr with
    | some s => if s.valid then [Effect.backend_send b event] else []
    | none => []
  else []

/-- Source function `lua_midi_send`: the handler primitive `midi_send(table)`.  The result
is the number of Lua results (always `0`), the stack afterwards and the
sends performed; a Lua error raised on the way is `Except.error`. -/
def lua_midi_send (bld : Build) (alsa jack : Option backend_singleton) (L : lua_State) :
    Except String (Nat × lua_State × List Effect) :=
  match read_event_loop 3 0 L ⟨0, 0, 0⟩ with
  | Except.error msg => Except.error msg
  | Except.ok (L1, event) =>
    Except.ok (0, L1,
      guarded_send bld.with_alsa Backend.alsa alsa event ++
      guarded_send bld.with_jack Backend.jack jack event)

/-- The stack of a call `midi_send({s, d1, d2})`: the one argument on top. -/
def send_call_stack (globals : List (String × LuaValue)) (s d1 d2 : Nat) : lua_State :=
  { stack := [LuaValue.table [Scalar.number s, Scalar.number d1, Scalar.number d2]],
    globals := globals }

/-- A backend that is compiled in, present (non-null pointer) and valid. -/
def backend_active (compiled : Bool) (ptr : Option backend_singleton) : Bool :=
  compiled && (match ptr with
    | some s => s.valid
    | none => false)

/-! ## The world the program runs in -/

/-- A command started with `popen`: the bytes it writes and how it ends. -/
structure Process where
  output : List Nat
  status : Int

/-- Everything the outside answers.  `home` is `getenv("HOME")`;
`can_open p` says whether `std::ifstream::open(p)` succeeds; `run_config p`
is the result of `luaL_loadfile(p) || lua_pcall`: an error message, or the
globals the script defines; `call f args` is the result of running the Lua
function `f` under `lua_pcall`: `none` on success, the error message on
failure; `popen` is `none` when the command cannot be started;
`alsa_valid`/`jack_valid` are the `valid` flags of the singletons returned
by `getInstance( true )`; `x11_fails` is the result of `initialise( L )`;
`alsa_pending i` are the events queued at ALSA in loop iteration `i`. -/
structure World where
  home : Option String
  can_open : String → Bool
  run_config : String → Except String (List (String × LuaValue))
  call : String → List LuaValue → Option String
  popen : String → Option Process
  alsa_valid : Bool
  jack_valid : Bool
  x11_fails : Bool
  alsa_pending : Nat → List midi_event

/-! ## `processEvent` -/

/-- Outcome of calling the value `f` on `args` in protected mode: only a
function can be called, and then the world decides. -/
def call_outcome (w : World) (f : LuaValue) (args : List LuaValue) : Option String :=
  match f with
  | LuaValue.val (Scalar.function name) => w.call name args
  | _ => some "attempt to call a non-function value"

/-- Lua API `lua_pcall(L, nargs, 0, 0)`: pops `nargs` arguments and the function
below them and calls it.  Returns the status (`0` on success); on failure
the error message is left on the stack in place of the function. -/
def lua_pcall (w : World) (L : lua_State) (nargs : Nat) : Int × lua_State × List Effect :=
  let args := (L.stack.take nargs).reverse
  match L.stack.drop nargs with
  | [] => (2, { L with stack := [LuaValue.val (Scalar.str "no function on the stack")] }, [])
  | f :: rest =>
    match call_outcome w f args with
    | none => (0, { L with stack := rest }, [Effect.pcall f args])
    | some msg => (2, { L with stack := LuaValue.val (Scalar.str msg) :: rest }, [Effect.pcall f args])

/-- Source function `processEvent`: result value, interpreter state afterwards, effects. -/
def processEvent (w : World) (L : lua_State) (event : midi_event) : Int × lua_State × List Effect :=
  let L1 := lua_getglobal L "midi_recv"
  let L2 := lua_pushnumber L1 (event.get 0)
  let L3 := lua_pushnumber L2 (event.get 1)
  let L4 := lua_pushnumber L3 (event.get 2)
  match lua_pcall w L4 3 with
  | (status, L5, tr) =>
    if status ≠ 0 then
      (0, L5, tr ++ [Effect.log Level.ERROR
        ("call to function \x27event_in\x27 failed" ++ lua_tostring L5 (-1))])
    else (0, L5, tr)

/-- Modelled from the spec: `alsa_singleton::midi_recv` (`alsa.h`) is not
among the sources.  It drains the input queue in arrival order and hands
each event to the registered event processor, here `processEvent`. -/
def drain_events (w : World) : lua_State → List midi_event → lua_State × List Effect
  | L, [] => (L, [])
  | L, e :: es =>
    match processEvent w L e with
    | (_, L1, tr) =>
      match drain_events w L1 es with
      | (L2, tr2) => (L2, tr ++ tr2)

/-- The protected calls among a list of effects, in order. -/
def pcalls : List Effect → List (LuaValue × List LuaValue)
  | [] => []
  | Effect.pcall f args :: tr => (f, args) :: pcalls tr
  | _ :: tr => pcalls tr

/-- The arguments `processEvent` passes for an event. -/
def event_args (e : midi_event) : List LuaValue :=
  [LuaValue.val (Scalar.number e.b0), LuaValue.val (Scalar.number e.b1),
   LuaValue.val (Scalar.number e.b2)]

/-- The value of a global variable. -/
def global_value (L : lua_State) (name : String) : LuaValue :=
  (L.globals.lookup name).getD (LuaValue.val Scalar.nil)

/-! ## `lua_exec` -/

/-- The queue `paths` as `load_config` fills it, front first. -/
def config_candidates (home : String) (name : String) : List String :=
  (if name = "" then [] else [name]) ++
    [home ++ "/.config/midi2input.lua", home ++ "/.midi2input.lua"]

/-- The `while(! paths.empty() )` loop: opens the front path and stops at
the first that opens, popping the ones that do not.  Returns the queue
left over and the opens attempted. -/
def probe_loop (w : World) : List String → List String × List Effect
  | [] => ([], [])
  | p :: rest =>
    if w.can_open p then (p :: rest, [Effect.ifstream_open p])
    else
      match probe_loop w rest with
      | (q, tr) => (q, Effect.ifstream_open p :: tr)

/-- Source function `load_config`: `none` stands for the run with `HOME` unset, where the
source builds a `std::string` from a null pointer; otherwise the result,
the interpreter state afterwards and the effects. -/
def load_config (w : World) (L : lua_State) (name : String) :
    Option (Bool × lua_State × List Effect) :=
  match w.home with
  | none => none
  | some home =>
    match probe_loop w (config_candidates home name) with
    | ([], tr) => some (false, L, tr)
    | (front :: _, tr) =>
      match w.run_config front with
      | Except.error msg =>
        some (false, { L with stack := LuaValue.val (Scalar.str msg) :: L.stack },
          tr ++ [Effect.loadfile front,
                 Effect.log Level.ERROR ("cannot run configuration file: " ++ msg)])
      | Except.ok defs =>
        some (true, { L with globals := defs ++ L.globals },
          tr ++ [Effect.loadfile front, Effect.log Level.INFO ("Using: " ++ front)])

/-- The paths opened among a list of effects, in order. -/
def opened_paths : List Effect → List String
  | [] => []
  | Effect.ifstream_open p :: tr => p :: opened_paths tr
  | _ :: tr => opened_paths tr

/-- The files loaded as configuration among a list of effects, in order. -/
def loaded_files : List Effect → List String
  | [] => []
  | Effect.loadfile p :: tr => p :: loaded_files tr
  | _ :: tr => loaded_files tr

/-! ## `main` -/

/-- The parsed command line (`argh::parser`, from `argh.h`, which is not
among the sources): the flags it recognised, as spelled, and the remaining
positional arguments.  `main` only ever asks it whether a flag is there. -/
structure Cmdl where
  flags : List String
  pos_args : List String

/-- The query `cmdl[{ a, b }]`: one of the given spellings is among the flags. -/
def Cmdl.has (cmdl : Cmdl) (names : List String) : Bool :=
  names.any (fun n => cmdl.flags.contains n)

/-- How a run of `main` ends: `exit( code )`; `running` when the main loop
is still going after the number of iterations looked at; `undefined` for
the run with `HOME` unset. -/
inductive Exit where
  | exit (code : Int)
  | running
  | undefined
  deriving DecidableEq, Repr

/-- The usage text. -/
def helptext : String :=
  "USAGE: ./midi2input [options]" ++
  "GENERAL OPTIONS:" ++
  "   -h  --help      Print usage and exit" ++
  "   -v  --verbose   Output more information" ++
  "   -c  --config    Specify config file, default = ~/.config/midi2input.lua" ++
  "   -a  --alsa      Use ALSA midi backend " ++
  "   -j  --jack      Use Jack midi backend "

/-- The state after `luaL_newstate` followed by the two `lua_setglobal` calls of `main`. -/
def initial_state : lua_State :=
  lua_setglobal
    (lua_setglobal { stack := [], globals := [] } "midi_send"
      (LuaValue.val (Scalar.function "lua_midi_send")))
    "exec" (LuaValue.val (Scalar.function "lua_exec"))

/-- One loop iteration's ALSA step:
`if( alsa ) if( alsa->valid ) alsa->midi_recv();` under `WITH_ALSA`. -/
def alsa_step (bld : Build) (w : World) (alsa : Option backend_singleton) (i : Nat)
    (L : lua_State) : lua_State × List Effect :=
  if bld.with_alsa then
    match alsa with
    | some s =>
      if s.valid then
        match drain_events w L (w.alsa_pending i) with
        | (L1, tr) => (L1, Effect.backend_recv Backend.alsa :: tr)
      else (L, [])
    | none => (L, [])
  else (L, [])

/-- The `while( true )` loop and what follows it.  The first argument is
the number of iterations looked at, the second the iteration number. -/
def main_loop (bld : Build) (w : World) (alsa : Option backend_singleton) :
    Nat → Nat → lua_State → Exit × List Effect
  | 0, _, _ => (Exit.running, [])
  | fuel + 1, i, L =>
    let tr1 := if bld.with_xorg then [Effect.detect_window] else []
    match alsa_step bld w alsa i L with
    | (L1, tr2) =>
      if !bld.with_alsa && !bld.with_jack then
        (Exit.exit 0, tr1 ++ tr2 ++
          [Effect.log Level.ERROR "no midi backend compiled into binary, nothing to do.",
           Effect.lua_close])
      else
        match main_loop bld w alsa fuel (i + 1) L1 with
        | (r, tr3) => (r, tr1 ++ tr2 ++ [Effect.sleep 1] ++ tr3)

/-- The log line written right before the loop. -/
def entering_loop : Effect :=
  Effect.log Level.INFO "Main: Entering sleep, waiting for events"

/-- From the X11 section to the end of `main`. -/
def main_x11 (bld : Build) (w : World) (alsa : Option backend_singleton)
    (fuel : Nat) (L : lua_State) : Exit × List Effect :=
  if bld.with_xorg && w.x11_fails then (Exit.exit (-1), [Effect.x11_initialise])
  else
    match main_loop bld w alsa fuel 0 L with
    | (r, tr) =>
      (r, (if bld.with_xorg then [Effect.x11_initialise] else []) ++ [entering_loop] ++ tr)

/-- One backend section of `main`: when the flag is given, either the
backend is compiled in, is opened and gets the event processor if it is
valid, or it is not compiled in and `main` exits (`none`). -/
def backend_section (requested compiled : Bool) (b : Backend) (opens_valid : Bool)
    (missing : String) : Option (Option backend_singleton) × List Effect :=
  if requested then
    if compiled then
      (some (some ⟨opens_valid⟩),
        Effect.get_instance b :: (if opens_valid then [Effect.set_eventProcessor b] else []))
    else (none, [Effect.log Level.ERROR missing])
  else (some none, [])

/-- From the ALSA section to the end of `main`. -/
def main_backends (bld : Build) (w : World) (cmdl : Cmdl) (fuel : Nat) (L : lua_State) :
    Exit × List Effect :=
  match backend_section (cmdl.has ["-a", "--alsa"]) bld.with_alsa Backend.alsa w.alsa_valid
      "Not compiled with ALSA midi backend" with
  | (none, tr1) => (Exit.exit (-1), tr1)
  | (some alsa, tr1) =>
    match backend_section (cmdl.has ["-j", "--jack"]) bld.with_jack Backend.jack w.jack_valid
        "Not compiled with Jack midi backend" with
    | (none, tr2) => (Exit.exit (-1), tr1 ++ tr2)
    | (some _, tr2) =>
      match main_x11 bld w alsa fuel L with
      | (r, tr3) => (r, tr1 ++ tr2 ++ tr3)

/-- The script name `main` hands to `load_config`. -/
def luaScript (cmdl : Cmdl) : String :=
  if cmdl.has ["-c", "--config"] then "" else "~/.config/midi2input.lua"

/-- From the Lua section to the end of `main`. -/
def main_lua (bld : Build) (w : World) (cmdl : Cmdl) (fuel : Nat) : Exit × List Effect :=
  let tr0 := [Effect.log Level.INFO "Parsing cmd line options",
              Effect.log Level.INFO "Initialising Lua",
              Effect.log Level.INFO "Lua: Loading configuration file"]
  match load_config w initial_state (luaScript cmdl) with
  | none => (Exit.undefined, tr0)
  | some (false, _, tr1) =>
    (Exit.exit (-1), tr0 ++ tr1 ++ [Effect.log Level.FATAL
      "Unable to open configuration file, expecting ~/.config/midi2input.lua, or -c switch."])
  | some (true, L, tr1) =>
    match main_backends bld w cmdl fuel L with
    | (r, tr2) => (r, tr0 ++ tr1 ++ tr2)

/-- Source function `main`.  The body of `if( cmdl[-v] )` is commented out in the source,
so the statement it governs is the `if( cmdl[-h] )` that follows. -/
def main (bld : Build) (w : World) (cmdl : Cmdl) (fuel : Nat) : Exit × List Effect :=
  if cmdl.has ["-v", "--verbose"] then
    if cmdl.has ["-h", "--help"] then
      (Exit.exit 0, [Effect.log Level.INFO helptext])
    else main_lua bld w cmdl fuel
  else main_lua bld w cmdl fuel

/-- The exit status the parent process sees for `exit( code )`. -/
def exit_status (code : Int) : Int := code % 256

/-- A world for examples: home is `/home/u`, exactly the paths in `files`
can be opened, every configuration runs and defines the handler
`midi_recv`, handler calls succeed, no command can be started, both
backends open as valid or not as given, nothing is pending. -/
def sample_world (files : List String) (alsa_valid jack_valid : Bool) : World :=
  { home := some "/home/u",
    can_open := fun p => files.contains p,
    run_config := fun _ => Except.ok [("midi_recv", LuaValue.val (Scalar.function "midi_recv"))],
    call := fun _ _ => none,
    popen := fun _ => none,
    alsa_valid := alsa_valid,
    jack_valid := jack_valid,
    x11_fails := false,
    alsa_pending := fun _ => [] }

/-- The kinds of effect the main loop can have: handler calls and their
ERROR log lines, the ERROR line and `lua_close` of a build without
backends, the sleep, the window check, and the ALSA receive, the last only
when ALSA is active. -/
def loop_effect (alsa_active : Bool) : Effect → Bool
  | Effect.pcall _ _ => true
  | Effect.log Level.ERROR _ => true
  | Effect.sleep _ => true
  | Effect.lua_close => true
  | Effect.detect_window => true
  | Effect.backend_recv Backend.alsa => alsa_active
  | _ => false

/-- The kinds of effect `load_config` can have: opens, the load, log lines. -/
def config_effect : Effect → Bool
  | Effect.ifstream_open _ => true
  | Effect.loadfile _ => true
  | Effect.log _ _ => true
  | _ => false

theorem to_uchar_of_lt (n : Nat) (h : n < 256) : to_uchar (n : Int) = n := by
  unfold to_uchar
  omega

/-- C1: a handler call `midi_send({s, d1, d2})` with `s`, `d1`, `d2` in
`0..255` returns normally with 0 Lua results and leaves the stack as it
was, and what it does to the backends is exactly this: one `midi_send` of
the event with bytes `s, d1, d2` on ALSA when ALSA is present and valid,
then one on JACK when JACK is present and valid, and nothing on a backend
that is absent or invalid. -/
theorem lua_midi_send_reaches_valid_backends (bld : Build)
    (alsa jack : Option backend_singleton) (globals : List (String × LuaValue))
    (s d1 d2 : Nat) (hs : s < 256) (h1 : d1 < 256) (h2 : d2 < 256) :
    lua_midi_send bld alsa jack (send_call_stack globals s d1 d2) =
      Except.ok (0, send_call_stack globals s d1 d2,
        (if backend_active bld.with_alsa alsa
          then [Effect.backend_send Backend.alsa ⟨s, d1, d2⟩] else []) ++
        (if backend_active bld.with_jack jack
          then [Effect.backend_send Backend.jack ⟨s, d1, d2⟩] else [])) := by
  have e : read_event_loop 3 0 (send_call_stack globals s d1 d2) ⟨0, 0, 0⟩ =
      Except.ok (send_call_stack globals s d1 d2, ⟨s, d1, d2⟩) := by
    simp [read_event_loop, send_call_stack, lua_gettable, lua_pushnumber, index2value,
      luaL_checknumber, lua_pop, rawgeti, midi_event.set, to_uchar_of_lt, hs, h1, h2]
  rw [lua_midi_send, e]
  rcases bld with ⟨ca, cj, cx⟩
  rcases alsa with _ | ⟨⟨va⟩⟩ <;> rcases jack with _ | ⟨⟨vj⟩⟩ <;>
    cases ca <;> cases cj <;> simp [guarded_send, backend_active]

/-- C1, the scenario of the specification: ALSA valid, JACK present but
invalid, `midi_send({0x80, 0x3C, 0x00})` reaches ALSA only. -/
theorem lua_midi_send_reaches_valid_backends_witness :
    (0x80 < 256 ∧ 0x3C < 256 ∧ 0x00 < 256) ∧
    lua_midi_send ⟨true, true, false⟩ (some ⟨true⟩) (some ⟨false⟩)
        (send_call_stack [] 0x80 0x3C 0x00) =
      Except.ok (0, send_call_stack [] 0x80 0x3C 0x00,
        [Effect.backend_send Backend.alsa ⟨0x80, 0x3C, 0x00⟩]) :=
  ⟨by decide,
   lua_midi_send_reaches_valid_backends ⟨true, true, false⟩ (some ⟨true⟩) (some ⟨false⟩) []
     0x80 0x3C 0x00 (by decide) (by decide) (by decide)⟩

/-! ## Properties of `processEvent` -/

theorem processEvent_eq (w : World) (L : lua_State) (e : midi_event) :
    processEvent w L e =
      match call_outcome w (global_value L "midi_recv") (event_args e) with
      | none => (0, L, [Effect.pcall (global_value L "midi_recv") (event_args e)])
      | some msg =>
        (0, { L with stack := LuaValue.val (Scalar.str msg) :: L.stack },
          [Effect.pcall (global_value L "midi_recv") (event_args e),
           Effect.log Level.ERROR ("call to function \x27event_in\x27 failed" ++ msg)]) := by
  simp only [processEvent, lua_pcall, lua_getglobal, lua_pushnumber, global_value,
    event_args, midi_event.get, List.take, List.drop, List.reverse_cons, List.reverse_nil,
    List.nil_append, List.cons_append]
  cases h : call_outcome w ((List.lookup "midi_recv" L.globals).getD (LuaValue.val Scalar.nil))
      [LuaValue.val (Scalar.number e.b0), LuaValue.val (Scalar.number e.b1),
       LuaValue.val (Scalar.number e.b2)] <;>
    simp [lua_tostring, index2value]

theorem processEvent_pcalls (w : World) (L : lua_State) (e : midi_event) :
    pcalls (processEvent w L e).2.2 = [(global_value L "midi_recv", event_args e)] := by
  rw [processEvent_eq]
  cases call_outcome w (global_value L "midi_recv") (event_args e) <;>
    simp [pcalls]

/-- C2: `processEvent(e)` makes exactly one protected call; the function
called is the value of the global `midi_recv` and the arguments are the
three numbers `e[0]`, `e[1]`, `e[2]` in that order. -/
theorem processEvent_calls_midi_recv_once (w : World) (L : lua_State) (e : midi_event) :
    pcalls (processEvent w L e).2.2 =
      [(global_value L "midi_recv",
        [LuaValue.val (Scalar.number e.b0), LuaValue.val (Scalar.number e.b1),
         LuaValue.val (Scalar.number e.b2)])] := by
  rw [processEvent_eq]
  cases call_outcome w (global_value L "midi_recv") (event_args e) <;>
    simp [pcalls, event_args]

theorem pcalls_append (a b : List Effect) : pcalls (a ++ b) = pcalls a ++ pcalls b := by
  induction a with
  | nil => rfl
  | cons x a ih => cases x <;> simp [pcalls, ih]

theorem processEvent_globals (w : World) (L : lua_State) (e : midi_event) :
    (processEvent w L e).2.1.globals = L.globals := by
  rw [processEvent_eq]
  cases call_outcome w (global_value L "midi_recv") (event_args e) <;> rfl

theorem drain_events_pcalls (w : World) (es : List midi_event) :
    ∀ L : lua_State, pcalls (drain_events w L es).2 =
      es.map (fun x => (global_value L "midi_recv", event_args x)) := by
  induction es with
  | nil => intro L; rfl
  | cons e es ih =>
    intro L
    have h1 := processEvent_pcalls w L e
    have h2 := processEvent_globals w L e
    have h3 := ih (processEvent w L e).2.1
    simp only [drain_events, pcalls_append, List.map_cons]
    rw [h1, h3]
    simp [global_value, h2]

/-- C3: whatever the protected call to `midi_recv` does, `processEvent(e)`
returns the value 0; what it does is that one call and, only when the call
failed, one ERROR log line carrying the message; and a caller that feeds a
queue of events through `processEvent` reaches every event of the queue, in
order, whichever of the calls fail. -/
theorem processEvent_survives_handler_failure (w : World) (L : lua_State)
    (e : midi_event) (es : List midi_event) :
    (processEvent w L e).1 = 0 ∧
    (processEvent w L e).2.2 =
      Effect.pcall (global_value L "midi_recv") (event_args e) ::
        (match call_outcome w (global_value L "midi_recv") (event_args e) with
          | none => []
          | some msg =>
            [Effect.log Level.ERROR ("call to function \x27event_in\x27 failed" ++ msg)]) ∧
    pcalls (drain_events w L (e :: es)).2 =
      (e :: es).map (fun x => (global_value L "midi_recv", event_args x)) := by
  refine ⟨?_, ?_, drain_events_pcalls w (e :: es) L⟩
  · rw [processEvent_eq]
    cases call_outcome w (global_value L "midi_recv") (event_args e) <;> rfl
  · rw [processEvent_eq]
    cases call_outcome w (global_value L "midi_recv") (event_args e) <;> rfl

/-! ## Properties of `load_config` -/

theorem opened_paths_append (a b : List Effect) :
    opened_paths (a ++ b) = opened_paths a ++ opened_paths b := by
  induction a with
  | nil => rfl
  | cons x a ih => cases x <;> simp [opened_paths, ih]

theorem loaded_files_append (a b : List Effect) :
    loaded_files (a ++ b) = loaded_files a ++ loaded_files b := by
  induction a with
  | nil => rfl
  | cons x a ih => cases x <;> simp [loaded_files, ih]

theorem probe_loop_queue (w : World) (ps : List String) :
    (probe_loop w ps).1 = ps.dropWhile (fun p => !w.can_open p) := by
  induction ps with
  | nil => rfl
  | cons p ps ih =>
    by_cases h : w.can_open p = true
    · simp [probe_loop, h, List.dropWhile]
    · simp only [Bool.not_eq_true] at h
      simp [probe_loop, h, List.dropWhile, ih]

theorem probe_loop_opened (w : World) (ps : List String) :
    opened_paths (probe_loop w ps).2 =
      ps.takeWhile (fun p => !w.can_open p) ++ (ps.find? w.can_open).toList := by
  induction ps with
  | nil => rfl
  | cons p ps ih =>
    by_cases h : w.can_open p = true
    · simp [probe_loop, h, List.takeWhile, opened_paths]
    · simp only [Bool.not_eq_true] at h
      simp [probe_loop, h, List.takeWhile, opened_paths, ih]

theorem probe_loop_loaded (w : World) (ps : List String) :
    loaded_files (probe_loop w ps).2 = [] ∧ pcalls (probe_loop w ps).2 = [] := by
  induction ps with
  | nil => exact ⟨rfl, rfl⟩
  | cons p ps ih =>
    by_cases h : w.can_open p = true
    · simp [probe_loop, h, loaded_files, pcalls]
    · simp only [Bool.not_eq_true] at h
      simp [probe_loop, h, loaded_files, pcalls, ih]

theorem dropWhile_head_find (f : String → Bool) (ps : List String) :
    (ps.dropWhile (fun p => !f p)).head? = ps.find? f := by
  induction ps with
  | nil => rfl
  | cons p ps ih =>
    by_cases h : f p = true
    · simp [List.dropWhile, h]
    · simp only [Bool.not_eq_true] at h
      simp [List.dropWhile, h, ih]

/-- The result of `load_config` spelled out: the opens are those of the
probe loop, and the file loaded is the front of the queue the loop leaves. -/
theorem load_config_eq (w : World) (L : lua_State) (name home : String)
    (hhome : w.home = some home) :
    load_config w L name =
      match (config_candidates home name).find? w.can_open with
      | none => some (false, L, (probe_loop w (config_candidates home name)).2)
      | some front =>
        match w.run_config front with
        | Except.error msg =>
          some (false, { L with stack := LuaValue.val (Scalar.str msg) :: L.stack },
            (probe_loop w (config_candidates home name)).2 ++ [Effect.loadfile front,
              Effect.log Level.ERROR ("cannot run configuration file: " ++ msg)])
        | Except.ok defs =>
          some (true, { L with globals := defs ++ L.globals },
            (probe_loop w (config_candidates home name)).2 ++
              [Effect.loadfile front, Effect.log Level.INFO ("Using: " ++ front)]) := by
  have hq := probe_loop_queue w (config_candidates home name)
  have hf := dropWhile_head_find w.can_open (config_candidates home name)
  rw [← hq] at hf
  unfold load_config
  rw [hhome]
  simp only
  rcases hp : probe_loop w (config_candidates home name) with ⟨q, tr⟩
  rw [hp] at hf
  cases q with
  | nil =>
    simp only [List.head?_nil] at hf
    rw [← hf]
  | cons front rest =>
    simp only [List.head?_cons] at hf
    rw [← hf]

/-- C4: with `HOME` set, `load_config(name)` opens the candidates
`[name (when non-empty), $HOME/.config/midi2input.lua, $HOME/.midi2input.lua]`
in that order, up to and including the first one that opens and none after
it; the only file it loads is that first one; and its result is `false`
when no candidate opens (otherwise it tells whether that file ran). -/
theorem load_config_first_openable (w : World) (L : lua_State) (name home : String)
    (hhome : w.home = some home) :
    config_candidates home name =
      (if name = "" then [] else [name]) ++
        [home ++ "/.config/midi2input.lua", home ++ "/.midi2input.lua"] ∧
    ∃ r L1 tr, load_config w L name = some (r, L1, tr) ∧
      opened_paths tr =
        (config_candidates home name).takeWhile (fun p => !w.can_open p) ++
          ((config_candidates home name).find? w.can_open).toList ∧
      loaded_files tr = ((config_candidates home name).find? w.can_open).toList ∧
      r = (match (config_candidates home name).find? w.can_open with
        | none => false
        | some front =>
          match w.run_config front with
          | Except.error _ => false
          | Except.ok _ => true) := by
  refine ⟨rfl, ?_⟩
  rw [load_config_eq w L name home hhome]
  have ho := probe_loop_opened w (config_candidates home name)
  have hl := (probe_loop_loaded w (config_candidates home name)).1
  cases hfind : (config_candidates home name).find? w.can_open with
  | none =>
    refine ⟨_, _, _, rfl, ?_, ?_, rfl⟩
    · rw [ho, hfind]
    · rw [hl]; rfl
  | some front =>
    cases hrun : w.run_config front with
    | error msg =>
      simp only [hrun]
      refine ⟨_, _, _, rfl, ?_, ?_, rfl⟩
      · rw [opened_paths_append, ho, hfind]; simp [opened_paths]
      · rw [loaded_files_append, hl]; simp [loaded_files]
    | ok defs =>
      simp only [hrun]
      refine ⟨_, _, _, rfl, ?_, ?_, rfl⟩
      · rw [opened_paths_append, ho, hfind]; simp [opened_paths]
      · rw [loaded_files_append, hl]; simp [loaded_files]

/-- C4 at a concrete input: `HOME=/home/u`, `name = /tmp/my.lua` cannot be
opened, both default locations can. -/
theorem load_config_first_openable_witness :
    (sample_world ["/home/u/.config/midi2input.lua", "/home/u/.midi2input.lua"] false false).home
      = some "/home/u" ∧
    opened_paths (((load_config
        (sample_world ["/home/u/.config/midi2input.lua", "/home/u/.midi2input.lua"] false false)
        initial_state "/tmp/my.lua").map (fun x => x.2.2)).getD [])
      = ["/tmp/my.lua", "/home/u/.config/midi2input.lua"] ∧
    loaded_files (((load_config
        (sample_world ["/home/u/.config/midi2input.lua", "/home/u/.midi2input.lua"] false false)
        initial_state "/tmp/my.lua").map (fun x => x.2.2)).getD [])
      = ["/home/u/.config/midi2input.lua"] := by
  obtain ⟨_, r, L1, tr, h, ho, hl, _⟩ := load_config_first_openable
    (sample_world ["/home/u/.config/midi2input.lua", "/home/u/.midi2input.lua"] false false)
    initial_state "/tmp/my.lua" "/home/u" rfl
  refine ⟨rfl, ?_, ?_⟩
  · rw [h]
    simp only [Option.map_some', Option.getD_some]
    rw [ho]
    decide
  · rw [h]
    simp only [Option.map_some', Option.getD_some]
    rw [hl]
    decide

/-! ## Properties of `main`: configuration and help -/

theorem probe_loop_none (w : World) (ps : List String)
    (h : ∀ p ∈ ps, w.can_open p = false) :
    probe_loop w ps = ([], ps.map Effect.ifstream_open) := by
  induction ps with
  | nil => rfl
  | cons p ps ih =>
    have hp : w.can_open p = false := h p (List.mem_cons_self p ps)
    have hps := ih (fun q hq => h q (List.mem_cons_of_mem p hq))
    simp [probe_loop, hp, hps]

theorem pcalls_map_open (ps : List String) : pcalls (ps.map Effect.ifstream_open) = [] := by
  induction ps with
  | nil => rfl
  | cons p ps ih => simpa [pcalls] using ih

/-- C8: with `HOME` set and no help flag, when none of the candidate
paths of `load_config` can be opened, `main` ends in `exit( -1 )` (status
255) after having done nothing but log and try to open those candidates:
it opens no backend, never reaches the main loop and never calls the
handler. -/
theorem missing_config_is_fatal (bld : Build) (w : World) (cmdl : Cmdl) (fuel : Nat)
    (home : String) (hhome : w.home = some home)
    (hhelp : cmdl.has ["-h", "--help"] = false)
    (hnone : ∀ p ∈ config_candidates home (luaScript cmdl), w.can_open p = false) :
    main bld w cmdl fuel =
      (Exit.exit (-1),
        [Effect.log Level.INFO "Parsing cmd line options",
         Effect.log Level.INFO "Initialising Lua",
         Effect.log Level.INFO "Lua: Loading configuration file"] ++
        (config_candidates home (luaScript cmdl)).map Effect.ifstream_open ++
        [Effect.log Level.FATAL
          "Unable to open configuration file, expecting ~/.config/midi2input.lua, or -c switch."]) ∧
    exit_status (-1) = 255 ∧
    (∀ b, Effect.get_instance b ∉ (main bld w cmdl fuel).2) ∧
    entering_loop ∉ (main bld w cmdl fuel).2 ∧
    pcalls (main bld w cmdl fuel).2 = [] := by
  have hl : load_config w initial_state (luaScript cmdl) =
      some (false, initial_state,
        (config_candidates home (luaScript cmdl)).map Effect.ifstream_open) := by
    unfold load_config
    rw [hhome]
    simp only
    rw [probe_loop_none w _ hnone]
  have hm : main bld w cmdl fuel =
      (Exit.exit (-1),
        [Effect.log Level.INFO "Parsing cmd line options",
         Effect.log Level.INFO "Initialising Lua",
         Effect.log Level.INFO "Lua: Loading configuration file"] ++
        (config_candidates home (luaScript cmdl)).map Effect.ifstream_open ++
        [Effect.log Level.FATAL
          "Unable to open configuration file, expecting ~/.config/midi2input.lua, or -c switch."]) := by
    simp only [main, hhelp, main_lua, hl]
    simp
  rw [hm]
  refine ⟨rfl, by decide, ?_, ?_, ?_⟩
  · intro b
    simp
  · simp [entering_loop]
  · simp [pcalls_append, pcalls_map_open, pcalls]

/-- C8 at a concrete input: `HOME=/home/u`, no flags, no file anywhere. -/
theorem missing_config_is_fatal_witness :
    (main ⟨true, true, false⟩ (sample_world [] true true) ⟨[], []⟩ 5).1 = Exit.exit (-1) ∧
    opened_paths (main ⟨true, true, false⟩ (sample_world [] true true) ⟨[], []⟩ 5).2 =
      ["~/.config/midi2input.lua", "/home/u/.config/midi2input.lua",
       "/home/u/.midi2input.lua"] := by
  have h := (missing_config_is_fatal ⟨true, true, false⟩ (sample_world [] true true) ⟨[], []⟩ 5
    "/home/u" rfl (by decide) (by decide)).1
  rw [h]
  exact ⟨rfl, by decide⟩

/-- C5, the code at a failing input.  First run: `-c /tmp/my.lua` with
`/tmp/my.lua` the only file that can be opened; `main` opens the two
`$HOME` defaults only and gives up.  Second run: no `-c`; the first path
opened is the literal `~/.config/midi2input.lua`, a third candidate. -/
theorem main_never_reads_config_path :
    main ⟨true, false, false⟩ (sample_world ["/tmp/my.lua"] false false)
        ⟨["-c"], ["/tmp/my.lua"]⟩ 1 =
      (Exit.exit (-1),
        [Effect.log Level.INFO "Parsing cmd line options",
         Effect.log Level.INFO "Initialising Lua",
         Effect.log Level.INFO "Lua: Loading configuration file",
         Effect.ifstream_open "/home/u/.config/midi2input.lua",
         Effect.ifstream_open "/home/u/.midi2input.lua",
         Effect.log Level.FATAL
          "Unable to open configuration file, expecting ~/.config/midi2input.lua, or -c switch."]) ∧
    opened_paths (main ⟨true, false, false⟩ (sample_world [] false false) ⟨[], []⟩ 1).2 =
      ["~/.config/midi2input.lua", "/home/u/.config/midi2input.lua",
       "/home/u/.midi2input.lua"] := by
  constructor <;> decide

/-- C6, the code at a failing input: `-h` without `-v`.  `main` prints no
usage text and does not exit: it loads the configuration and is in the
main loop, asleep. -/
theorem main_help_needs_verbose :
    main ⟨true, false, false⟩ (sample_world ["/home/u/.config/midi2input.lua"] false false)
        ⟨["-h"], []⟩ 1 =
      (Exit.running,
        [Effect.log Level.INFO "Parsing cmd line options",
         Effect.log Level.INFO "Initialising Lua",
         Effect.log Level.INFO "Lua: Loading configuration file",
         Effect.ifstream_open "~/.config/midi2input.lua",
         Effect.ifstream_open "/home/u/.config/midi2input.lua",
         Effect.loadfile "/home/u/.config/midi2input.lua",
         Effect.log Level.INFO "Using: /home/u/.config/midi2input.lua",
         entering_loop,
         Effect.sleep 1]) := by
  decide

/-! ## Properties of `main`: backends and the main loop -/

theorem using_ne_entering (p : String) :
    Effect.log Level.INFO ("Using: " ++ p) ≠ entering_loop := by
  intro h
  unfold entering_loop at h
  injection h with _ h2
  have h3 : ("Using: " ++ p).data.head? = some 'U' := by
    cases p
    rfl
  rw [h2] at h3
  revert h3
  decide

theorem probe_loop_only_opens (w : World) (ps : List String) :
    ∀ x ∈ (probe_loop w ps).2, ∃ p, x = Effect.ifstream_open p := by
  induction ps with
  | nil => intro x hx; simp [probe_loop] at hx
  | cons p ps ih =>
    intro x hx
    by_cases h : w.can_open p = true
    · simp [probe_loop, h] at hx
      exact ⟨p, hx⟩
    · simp only [Bool.not_eq_true] at h
      simp [probe_loop, h] at hx
      rcases hx with hx | hx
      · exact ⟨p, hx⟩
      · exact ih x hx

/-- What `load_config` does never includes a handler call, the log line
of the main loop, or the registration of an event processor. -/
theorem load_config_quiet (w : World) (L L1 : lua_State) (name : String) (r : Bool)
    (tr : List Effect) (h : load_config w L name = some (r, L1, tr)) :
    pcalls tr = [] ∧ entering_loop ∉ tr ∧ ∀ b, Effect.set_eventProcessor b ∉ tr := by
  cases hh : w.home with
  | none => simp [load_config, hh] at h
  | some home =>
    rw [load_config_eq w L name home hh] at h
    have hp := (probe_loop_loaded w (config_candidates home name)).2
    have ho := probe_loop_only_opens w (config_candidates home name)
    have hne : entering_loop ∉ (probe_loop w (config_candidates home name)).2 := by
      intro hm
      obtain ⟨p, hp⟩ := ho _ hm
      simp [entering_loop] at hp
    have hns : ∀ b, Effect.set_eventProcessor b ∉ (probe_loop w (config_candidates home name)).2 := by
      intro b hm
      obtain ⟨p, hp⟩ := ho _ hm
      simp at hp
    cases hfind : (config_candidates home name).find? w.can_open with
    | none =>
      simp only [hfind, Option.some.injEq, Prod.mk.injEq] at h
      obtain ⟨_, _, rfl⟩ := h
      exact ⟨hp, hne, hns⟩
    | some front =>
      cases hrun : w.run_config front with
      | error msg =>
        simp only [hfind, hrun, Option.some.injEq, Prod.mk.injEq] at h
        obtain ⟨_, _, rfl⟩ := h
        refine ⟨?_, ?_, ?_⟩
        · simp [pcalls_append, hp, pcalls]
        · simp only [List.mem_append, List.mem_cons, List.mem_singleton, List.not_mem_nil,
            or_false, not_or]
          exact ⟨hne, by simp [entering_loop], by simp [entering_loop]⟩
        · intro b
          simp [hns b]
      | ok defs =>
        simp only [hfind, hrun, Option.some.injEq, Prod.mk.injEq] at h
        obtain ⟨_, _, rfl⟩ := h
        refine ⟨?_, ?_, ?_⟩
        · simp [pcalls_append, hp, pcalls]
        · have hu := using_ne_entering front
          simp only [List.mem_append, List.mem_cons, List.mem_singleton, List.not_mem_nil,
            or_false, not_or]
          exact ⟨hne, by simp [entering_loop], fun hc => hu hc.symm⟩
        · intro b
          simp [hns b]

/-- With a backend compiled in, no focus watcher and ALSA not active, any
number of loop iterations is that many sleeps and the loop is still on. -/
theorem main_loop_idle (bld : Build) (w : World) (alsa : Option backend_singleton)
    (hx : bld.with_xorg = false) (hc : (bld.with_alsa || bld.with_jack) = true)
    (ha : backend_active bld.with_alsa alsa = false) :
    ∀ (fuel i : Nat) (L : lua_State),
      main_loop bld w alsa fuel i L = (Exit.running, List.replicate fuel (Effect.sleep 1)) := by
  have hstep : ∀ i L, alsa_step bld w alsa i L = (L, []) := by
    intro i L
    rcases bld with ⟨ca, cj, cx⟩
    rcases alsa with _ | ⟨⟨va⟩⟩ <;> cases ca <;> simp_all [alsa_step, backend_active]
  have hb : (!bld.with_alsa && !bld.with_jack) = false := by
    rcases bld with ⟨ca, cj, cx⟩
    cases ca <;> cases cj <;> simp_all
  intro fuel
  induction fuel with
  | zero => intro i L; rfl
  | succ n ih =>
    intro i L
    simp only [main_loop, hstep, hb, hx, ih]
    simp [List.replicate_succ]

/-- The main loop, when it ends at all, ends in `exit( 0 )`. -/
theorem main_loop_outcome (bld : Build) (w : World) (alsa : Option backend_singleton) :
    ∀ (fuel i : Nat) (L : lua_State),
      (main_loop bld w alsa fuel i L).1 = Exit.running ∨
      (main_loop bld w alsa fuel i L).1 = Exit.exit 0 := by
  intro fuel
  induction fuel with
  | zero => intro i L; exact Or.inl rfl
  | succ n ih =>
    intro i L
    simp only [main_loop]
    by_cases hb : (!bld.with_alsa && !bld.with_jack) = true
    · simp [hb]
    · simp only [hb]
      exact ih (i + 1) (alsa_step bld w alsa i L).1

theorem load_config_some (w : World) (L : lua_State) (name home : String)
    (hhome : w.home = some home) :
    ∃ r L1 tr, load_config w L name = some (r, L1, tr) := by
  rw [load_config_eq w L name home hhome]
  cases (config_candidates home name).find? w.can_open with
  | none => exact ⟨_, _, _, rfl⟩
  | some front =>
    cases hrun : w.run_config front with
    | error msg => simp only [hrun]; exact ⟨_, _, _, rfl⟩
    | ok defs => simp only [hrun]; exact ⟨_, _, _, rfl⟩

/-- A requested backend that is not compiled in ends `main` in the
backend sections. -/
theorem main_backends_missing (bld : Build) (w : World) (cmdl : Cmdl) (fuel : Nat)
    (L : lua_State)
    (hmiss : (cmdl.has ["-a", "--alsa"] = true ∧ bld.with_alsa = false) ∨
      (cmdl.has ["-j", "--jack"] = true ∧ bld.with_jack = false)) :
    (main_backends bld w cmdl fuel L).1 = Exit.exit (-1) ∧
    entering_loop ∉ (main_backends bld w cmdl fuel L).2 := by
  rcases bld with ⟨ca, cj, cx⟩
  unfold main_backends
  generalize cmdl.has ["-a", "--alsa"] = ra at *
  generalize cmdl.has ["-j", "--jack"] = rj at *
  generalize w.alsa_valid = va
  cases ra <;> cases ca <;> cases rj <;> cases cj <;> cases va <;>
    simp_all [backend_section, entering_loop]

theorem main_without_help (bld : Build) (w : World) (cmdl : Cmdl) (fuel : Nat)
    (hhelp : (cmdl.has ["-v", "--verbose"] && cmdl.has ["-h", "--help"]) = false) :
    main bld w cmdl fuel = main_lua bld w cmdl fuel := by
  unfold main
  generalize cmdl.has ["-v", "--verbose"] = v at *
  generalize cmdl.has ["-h", "--help"] = h at *
  cases v <;> cases h <;> simp_all

/-- C7, the claim at two concrete inputs.  First run: `-a` with ALSA
compiled in and opening as invalid; `main` does not exit, it is in the main
loop after two iterations.  Second run: `-v -h -a` with ALSA not compiled
in; `main` exits with code 0 on the help text. -/
theorem invalid_backend_is_not_fatal :
    main ⟨true, false, false⟩ (sample_world ["/home/u/.config/midi2input.lua"] false false)
        ⟨["-a"], []⟩ 2 =
      (Exit.running,
        [Effect.log Level.INFO "Parsing cmd line options",
         Effect.log Level.INFO "Initialising Lua",
         Effect.log Level.INFO "Lua: Loading configuration file",
         Effect.ifstream_open "~/.config/midi2input.lua",
         Effect.ifstream_open "/home/u/.config/midi2input.lua",
         Effect.loadfile "/home/u/.config/midi2input.lua",
         Effect.log Level.INFO "Using: /home/u/.config/midi2input.lua",
         Effect.get_instance Backend.alsa,
         entering_loop,
         Effect.sleep 1,
         Effect.sleep 1]) ∧
    main ⟨false, false, false⟩ (sample_world ["/home/u/.config/midi2input.lua"] false false)
        ⟨["-v", "-h", "-a"], []⟩ 2 =
      (Exit.exit 0, [Effect.log Level.INFO helptext]) := by
  constructor
  · decide
  · rfl

theorem load_config_effects (w : World) (L L1 : lua_State) (name : String) (r : Bool)
    (tr : List Effect) (h : load_config w L name = some (r, L1, tr)) :
    ∀ x ∈ tr, config_effect x = true := by
  cases hh : w.home with
  | none => simp [load_config, hh] at h
  | some home =>
    rw [load_config_eq w L name home hh] at h
    have ho : ∀ x ∈ (probe_loop w (config_candidates home name)).2, config_effect x = true := by
      intro x hx
      obtain ⟨p, rfl⟩ := probe_loop_only_opens w (config_candidates home name) x hx
      rfl
    cases hfind : (config_candidates home name).find? w.can_open with
    | none =>
      simp only [hfind, Option.some.injEq, Prod.mk.injEq] at h
      obtain ⟨_, _, rfl⟩ := h
      exact ho
    | some front =>
      cases hrun : w.run_config front with
      | error msg =>
        simp only [hfind, hrun, Option.some.injEq, Prod.mk.injEq] at h
        obtain ⟨_, _, rfl⟩ := h
        intro x hx
        simp only [List.mem_append, List.mem_cons, List.mem_singleton, List.not_mem_nil,
          or_false] at hx
        rcases hx with hx | rfl | rfl
        · exact ho x hx
        · rfl
        · rfl
      | ok defs =>
        simp only [hfind, hrun, Option.some.injEq, Prod.mk.injEq] at h
        obtain ⟨_, _, rfl⟩ := h
        intro x hx
        simp only [List.mem_append, List.mem_cons, List.mem_singleton, List.not_mem_nil,
          or_false] at hx
        rcases hx with hx | rfl | rfl
        · exact ho x hx
        · rfl
        · rfl

theorem processEvent_effects (w : World) (L : lua_State) (e : midi_event) (act : Bool) :
    ∀ x ∈ (processEvent w L e).2.2, loop_effect act x = true := by
  rw [processEvent_eq]
  cases call_outcome w (global_value L "midi_recv") (event_args e) with
  | none =>
    intro x hx
    simp only [List.mem_singleton] at hx
    rw [hx]; rfl
  | some msg =>
    intro x hx
    simp only [List.mem_cons, List.mem_singleton, List.not_mem_nil, or_false] at hx
    rcases hx with rfl | rfl <;> rfl

theorem drain_events_effects (w : World) (act : Bool) (es : List midi_event) :
    ∀ L : lua_State, ∀ x ∈ (drain_events w L es).2, loop_effect act x = true := by
  induction es with
  | nil => intro L x hx; simp [drain_events] at hx
  | cons e es ih =>
    intro L x hx
    simp only [drain_events, List.mem_append] at hx
    rcases hx with hx | hx
    · exact processEvent_effects w L e act x hx
    · exact ih _ x hx

theorem alsa_step_effects (bld : Build) (w : World) (alsa : Option backend_singleton)
    (i : Nat) (L : lua_State) :
    ∀ x ∈ (alsa_step bld w alsa i L).2,
      loop_effect (backend_active bld.with_alsa alsa) x = true := by
  intro x hx
  rcases bld with ⟨ca, cj, cx⟩
  rcases alsa with _ | ⟨⟨va⟩⟩ <;> cases ca <;> try cases va
  all_goals simp only [alsa_step, Bool.false_eq_true, if_false, if_true, List.not_mem_nil,
    List.mem_cons] at hx
  rcases hx with rfl | hx
  · rfl
  · exact drain_events_effects w _ _ L x hx

/-- Whatever the main loop does is a handler call, an ERROR log line, a
sleep, the window check, `lua_close`, or, only with ALSA active, the ALSA
receive. -/
theorem main_loop_effects (bld : Build) (w : World) (alsa : Option backend_singleton) :
    ∀ (fuel i : Nat) (L : lua_State), ∀ x ∈ (main_loop bld w alsa fuel i L).2,
      loop_effect (backend_active bld.with_alsa alsa) x = true := by
  intro fuel
  induction fuel with
  | zero => intro i L x hx; simp [main_loop] at hx
  | succ n ih =>
    intro i L x hx
    have hstep := alsa_step_effects bld w alsa i L
    have hxorg : ∀ y ∈ (if bld.with_xorg = true then [Effect.detect_window] else []),
        loop_effect (backend_active bld.with_alsa alsa) y = true := by
      intro y hy
      cases hxo : bld.with_xorg <;> simp [hxo] at hy
      rw [hy]; rfl
    cases hb : (!bld.with_alsa && !bld.with_jack) with
    | true =>
      have he : (main_loop bld w alsa (n + 1) i L).2 =
          (if bld.with_xorg = true then [Effect.detect_window] else []) ++
            (alsa_step bld w alsa i L).2 ++
            [Effect.log Level.ERROR "no midi backend compiled into binary, nothing to do.",
             Effect.lua_close] := by
        simp only [main_loop, hb, if_true]
      rw [he] at hx
      simp only [List.mem_append, List.mem_cons, List.mem_singleton, List.not_mem_nil,
        or_false] at hx
      rcases hx with (hx | hx) | hx | hx
      · exact hxorg x hx
      · exact hstep x hx
      · rw [hx]; rfl
      · rw [hx]; rfl
    | false =>
      have he : (main_loop bld w alsa (n + 1) i L).2 =
          (if bld.with_xorg = true then [Effect.detect_window] else []) ++
            (alsa_step bld w alsa i L).2 ++ [Effect.sleep 1] ++
            (main_loop bld w alsa n (i + 1) (alsa_step bld w alsa i L).1).2 := by
        simp only [main_loop, hb, Bool.false_eq_true, if_false]
      rw [he] at hx
      simp only [List.mem_append, List.mem_cons, List.mem_singleton, List.not_mem_nil,
        or_false] at hx
      rcases hx with ((hx | hx) | hx) | hx
      · exact hxorg x hx
      · exact hstep x hx
      · rw [hx]; rfl
      · exact ih _ _ x hx

theorem main_x11_eq (bld : Build) (w : World) (alsa : Option backend_singleton)
    (fuel : Nat) (L : lua_State) (hx : (bld.with_xorg && w.x11_fails) = false) :
    main_x11 bld w alsa fuel L =
      ((main_loop bld w alsa fuel 0 L).1,
        (if bld.with_xorg then [Effect.x11_initialise] else []) ++ [entering_loop] ++
          (main_loop bld w alsa fuel 0 L).2) := by
  simp only [main_x11, hx, Bool.false_eq_true, if_false]

/-- The run of `main` once the configuration is loaded and every requested
backend is compiled in: the backend sections, the X11 start-up, the log
line of the loop, then the loop. -/
theorem main_with_backends (bld : Build) (w : World) (cmdl : Cmdl) (fuel : Nat)
    (L : lua_State) (tr : List Effect)
    (hhelp : cmdl.has ["-h", "--help"] = false)
    (hcfg : load_config w initial_state (luaScript cmdl) = some (true, L, tr))
    (ha : cmdl.has ["-a", "--alsa"] = true → bld.with_alsa = true)
    (hj : cmdl.has ["-j", "--jack"] = true → bld.with_jack = true)
    (hx : (bld.with_xorg && w.x11_fails) = false) :
    main bld w cmdl fuel =
      ((main_loop bld w
          (if cmdl.has ["-a", "--alsa"] then some ⟨w.alsa_valid⟩ else none) fuel 0 L).1,
        [Effect.log Level.INFO "Parsing cmd line options",
         Effect.log Level.INFO "Initialising Lua",
         Effect.log Level.INFO "Lua: Loading configuration file"] ++ tr ++
        ((if cmdl.has ["-a", "--alsa"] then
            Effect.get_instance Backend.alsa ::
              (if w.alsa_valid then [Effect.set_eventProcessor Backend.alsa] else [])
          else []) ++
         (if cmdl.has ["-j", "--jack"] then
            Effect.get_instance Backend.jack ::
              (if w.jack_valid then [Effect.set_eventProcessor Backend.jack] else [])
          else []) ++
         ((if bld.with_xorg then [Effect.x11_initialise] else []) ++ [entering_loop] ++
          (main_loop bld w
            (if cmdl.has ["-a", "--alsa"] then some ⟨w.alsa_valid⟩ else none) fuel 0 L).2))) := by
  rw [main_without_help bld w cmdl fuel (by simp [hhelp])]
  simp only [main_lua, hcfg, main_backends]
  have hm := fun alsa => main_x11_eq bld w alsa fuel L hx
  generalize cmdl.has ["-a", "--alsa"] = ra at *
  generalize cmdl.has ["-j", "--jack"] = rj at *
  cases ra <;> cases rj <;> simp_all [backend_section]

/-- C7 as amended: with `HOME` set and no help flag given, (1) if a
requested backend is not compiled in, `main` ends in `exit( -1 )` (status
255) without reaching the main loop; (2) if every requested backend is
compiled in, the configuration loads and the X11 start-up does not fail,
then whatever `valid` flags the opened backends have `main` does not exit
with a non-zero code (it is in the main loop or has left it with code 0)
and it does reach the main loop; an event processor is registered with a
backend exactly when that backend was requested and opened as valid; and
an ALSA backend opened as invalid is never received from. -/
theorem missing_backend_is_fatal (bld : Build) (w : World) (cmdl : Cmdl) (fuel : Nat)
    (home : String) (hhome : w.home = some home)
    (hhelp : cmdl.has ["-h", "--help"] = false) :
    (((cmdl.has ["-a", "--alsa"] = true ∧ bld.with_alsa = false) ∨
        (cmdl.has ["-j", "--jack"] = true ∧ bld.with_jack = false)) →
      (main bld w cmdl fuel).1 = Exit.exit (-1) ∧ exit_status (-1) = 255 ∧
        entering_loop ∉ (main bld w cmdl fuel).2) ∧
    ((cmdl.has ["-a", "--alsa"] = true → bld.with_alsa = true) →
      (cmdl.has ["-j", "--jack"] = true → bld.with_jack = true) →
      (∃ L tr, load_config w initial_state (luaScript cmdl) = some (true, L, tr)) →
      (bld.with_xorg && w.x11_fails) = false →
      ((main bld w cmdl fuel).1 = Exit.running ∨ (main bld w cmdl fuel).1 = Exit.exit 0) ∧
      entering_loop ∈ (main bld w cmdl fuel).2 ∧
      (Effect.set_eventProcessor Backend.alsa ∈ (main bld w cmdl fuel).2 ↔
        cmdl.has ["-a", "--alsa"] = true ∧ w.alsa_valid = true) ∧
      (Effect.set_eventProcessor Backend.jack ∈ (main bld w cmdl fuel).2 ↔
        cmdl.has ["-j", "--jack"] = true ∧ w.jack_valid = true) ∧
      (w.alsa_valid = false → Effect.backend_recv Backend.alsa ∉ (main bld w cmdl fuel).2)) := by
  constructor
  · intro hmiss
    rw [main_without_help bld w cmdl fuel (by simp [hhelp])]
    obtain ⟨r, L1, tr, hlc⟩ := load_config_some w initial_state (luaScript cmdl) home hhome
    have hq := (load_config_quiet w initial_state L1 (luaScript cmdl) r tr hlc).2.1
    cases r with
    | false =>
      simp only [main_lua, hlc]
      refine ⟨by trivial, by decide, ?_⟩
      simp only [List.mem_append, List.mem_cons, List.mem_singleton, List.not_mem_nil,
        or_false, not_or]
      exact ⟨⟨⟨by simp [entering_loop], by simp [entering_loop], by simp [entering_loop]⟩,
        hq⟩, by simp [entering_loop]⟩
    | true =>
      obtain ⟨h1, h2⟩ := main_backends_missing bld w cmdl fuel L1 hmiss
      simp only [main_lua, hlc]
      refine ⟨h1, by decide, ?_⟩
      simp only [List.mem_append, List.mem_cons, List.mem_singleton, List.not_mem_nil,
        or_false, not_or]
      exact ⟨⟨⟨by simp [entering_loop], by simp [entering_loop], by simp [entering_loop]⟩,
        hq⟩, h2⟩
  · intro ha hj hcfg hx
    obtain ⟨L1, tr, hlc⟩ := hcfg
    rw [main_with_backends bld w cmdl fuel L1 tr hhelp hlc ha hj hx]
    have hcfgeff := load_config_effects w initial_state L1 (luaScript cmdl) true tr hlc
    have hloop := main_loop_effects bld w
      (if cmdl.has ["-a", "--alsa"] then some ⟨w.alsa_valid⟩ else none) fuel 0 L1
    have hnc : ∀ x, x ∈ tr → config_effect x = false → False := by
      intro x hx hf
      rw [hcfgeff x hx] at hf
      exact Bool.noConfusion hf
    have hnl : ∀ x, x ∈ (main_loop bld w
        (if cmdl.has ["-a", "--alsa"] then some ⟨w.alsa_valid⟩ else none) fuel 0 L1).2 →
        loop_effect (backend_active bld.with_alsa
          (if cmdl.has ["-a", "--alsa"] then some ⟨w.alsa_valid⟩ else none)) x = false →
        False := by
      intro x hx hf
      rw [hloop x hx] at hf
      exact Bool.noConfusion hf
    refine ⟨main_loop_outcome bld w _ fuel 0 L1, ?_, ?_, ?_, ?_⟩
    · simp
    · constructor
      · intro hm
        simp only [List.mem_append, List.mem_cons, List.mem_singleton, List.not_mem_nil,
          or_false] at hm
        rcases hm with ((h | h | h) | h) | (h | h) | (h | h) | h
        · exact absurd h (by simp)
        · exact absurd h (by simp)
        · exact absurd h (by simp)
        · exact (hnc _ h rfl).elim
        · cases hra : cmdl.has ["-a", "--alsa"] <;> cases hva : w.alsa_valid <;>
            simp_all
        · cases hrj : cmdl.has ["-j", "--jack"] <;> cases hvj : w.jack_valid <;>
            simp_all
        · cases hxo : bld.with_xorg <;> simp [hxo] at h
        · exact absurd h (by simp [entering_loop])
        · exact (hnl _ h rfl).elim
      · rintro ⟨h1, h2⟩
        simp [h1, h2]
    · constructor
      · intro hm
        simp only [List.mem_append, List.mem_cons, List.mem_singleton, List.not_mem_nil,
          or_false] at hm
        rcases hm with ((h | h | h) | h) | (h | h) | (h | h) | h
        · exact absurd h (by simp)
        · exact absurd h (by simp)
        · exact absurd h (by simp)
        · exact (hnc _ h rfl).elim
        · cases hra : cmdl.has ["-a", "--alsa"] <;> cases hva : w.alsa_valid <;>
            simp_all
        · cases hrj : cmdl.has ["-j", "--jack"] <;> cases hvj : w.jack_valid <;>
            simp_all
        · cases hxo : bld.with_xorg <;> simp [hxo] at h
        · exact absurd h (by simp [entering_loop])
        · exact (hnl _ h rfl).elim
      · rintro ⟨h1, h2⟩
        simp [h1, h2]
    · intro hva hm
      simp only [List.mem_append, List.mem_cons, List.mem_singleton, List.not_mem_nil,
        or_false] at hm
      rcases hm with ((h | h | h) | h) | (h | h) | (h | h) | h
      · exact absurd h (by simp)
      · exact absurd h (by simp)
      · exact absurd h (by simp)
      · exact (hnc _ h rfl).elim
      · cases hra : cmdl.has ["-a", "--alsa"] <;> simp_all
      · cases hrj : cmdl.has ["-j", "--jack"] <;> cases hvj : w.jack_valid <;>
          simp_all
      · cases hxo : bld.with_xorg <;> simp [hxo] at h
      · exact absurd h (by simp [entering_loop])
      · refine hnl _ h ?_
        cases hra : cmdl.has ["-a", "--alsa"] <;> cases hca : bld.with_alsa <;>
          simp [loop_effect, backend_active, hva]

/-- C7 as amended, at two concrete inputs: `-j` on a build without JACK is
fatal; `-a` on a build with ALSA whose open yields an invalid backend is
not, the main loop is reached and no event processor is registered. -/
theorem missing_backend_is_fatal_witness :
    (main ⟨true, false, false⟩ (sample_world ["/home/u/.config/midi2input.lua"] true true)
        ⟨["-j"], []⟩ 3).1 = Exit.exit (-1) ∧
    entering_loop ∈
      (main ⟨true, false, false⟩ (sample_world ["/home/u/.config/midi2input.lua"] false false)
        ⟨["-a"], []⟩ 3).2 ∧
    Effect.set_eventProcessor Backend.alsa ∉
      (main ⟨true, false, false⟩ (sample_world ["/home/u/.config/midi2input.lua"] false false)
        ⟨["-a"], []⟩ 3).2 :=
  ⟨((missing_backend_is_fatal ⟨true, false, false⟩
        (sample_world ["/home/u/.config/midi2input.lua"] true true) ⟨["-j"], []⟩ 3
        "/home/u" rfl (by decide)).1 (Or.inr ⟨by decide, rfl⟩)).1,
   ((missing_backend_is_fatal ⟨true, false, false⟩
        (sample_world ["/home/u/.config/midi2input.lua"] false false) ⟨["-a"], []⟩ 3
        "/home/u" rfl (by decide)).2 (by decide) (by decide) ⟨_, _, rfl⟩ (by decide)).2.1,
   fun h => Bool.noConfusion
     ((((missing_backend_is_fatal ⟨true, false, false⟩
        (sample_world ["/home/u/.config/midi2input.lua"] false false) ⟨["-a"], []⟩ 3
        "/home/u" rfl (by decide)).2 (by decide) (by decide) ⟨_, _, rfl⟩
        (by decide)).2.2.1.mp h).2)⟩

theorem pcalls_replicate_sleep (n : Nat) : pcalls (List.replicate n (Effect.sleep 1)) = [] := by
  induction n with
  | zero => rfl
  | succ n ih => simpa [List.replicate_succ, pcalls] using ih

/-- C10, the claim at a concrete input: a build with neither ALSA nor
JACK (and no X11), no flags, configuration loaded.  The first loop
iteration logs an error and leaves the loop without sleeping; `main` ends
with `exit( 0 )`. -/
theorem loop_without_backends_compiled_ends :
    main ⟨false, false, false⟩ (sample_world ["/home/u/.config/midi2input.lua"] false false)
        ⟨[], []⟩ 3 =
      (Exit.exit 0,
        [Effect.log Level.INFO "Parsing cmd line options",
         Effect.log Level.INFO "Initialising Lua",
         Effect.log Level.INFO "Lua: Loading configuration file",
         Effect.ifstream_open "~/.config/midi2input.lua",
         Effect.ifstream_open "/home/u/.config/midi2input.lua",
         Effect.loadfile "/home/u/.config/midi2input.lua",
         Effect.log Level.INFO "Using: /home/u/.config/midi2input.lua",
         entering_loop,
         Effect.log Level.ERROR "no midi backend compiled into binary, nothing to do.",
         Effect.lua_close]) := by
  decide

/-- C10 as amended: without X11, with no help flag and after a successful
configuration load, (1) on a build with at least one MIDI backend and with
no backend active (each one either not requested or opened as invalid),
`main` is still in the loop after any number of iterations; every
iteration is exactly one `sleep( 1 )`; no event processor is registered
and the handler is never called; (2) on a build with neither backend, when
no backend is requested, the first iteration logs an error and leaves the
loop without sleeping, and `main` ends with `exit( 0 )`, the handler never
called. -/
theorem idle_loop_runs_forever (bld : Build) (w : World) (cmdl : Cmdl) (fuel : Nat)
    (L : lua_State) (tr : List Effect)
    (hhelp : cmdl.has ["-h", "--help"] = false)
    (hcfg : load_config w initial_state (luaScript cmdl) = some (true, L, tr))
    (hx : bld.with_xorg = false) :
    ((bld.with_alsa || bld.with_jack) = true →
      (cmdl.has ["-a", "--alsa"] = false ∨ (bld.with_alsa = true ∧ w.alsa_valid = false)) →
      (cmdl.has ["-j", "--jack"] = false ∨ (bld.with_jack = true ∧ w.jack_valid = false)) →
      main bld w cmdl fuel =
        (Exit.running,
          [Effect.log Level.INFO "Parsing cmd line options",
           Effect.log Level.INFO "Initialising Lua",
           Effect.log Level.INFO "Lua: Loading configuration file"] ++ tr ++
          ((if cmdl.has ["-a", "--alsa"] then [Effect.get_instance Backend.alsa] else []) ++
           (if cmdl.has ["-j", "--jack"] then [Effect.get_instance Backend.jack] else []) ++
           ([entering_loop] ++ List.replicate fuel (Effect.sleep 1)))) ∧
      pcalls (main bld w cmdl fuel).2 = [] ∧
      ∀ b, Effect.set_eventProcessor b ∉ (main bld w cmdl fuel).2) ∧
    (bld.with_alsa = false → bld.with_jack = false →
      cmdl.has ["-a", "--alsa"] = false → cmdl.has ["-j", "--jack"] = false →
      main bld w cmdl (fuel + 1) =
        (Exit.exit 0,
          [Effect.log Level.INFO "Parsing cmd line options",
           Effect.log Level.INFO "Initialising Lua",
           Effect.log Level.INFO "Lua: Loading configuration file"] ++ tr ++
          [entering_loop,
           Effect.log Level.ERROR "no midi backend compiled into binary, nothing to do.",
           Effect.lua_close]) ∧
      pcalls (main bld w cmdl (fuel + 1)).2 = []) := by
  have hq := load_config_quiet w initial_state L (luaScript cmdl) true tr hcfg
  constructor
  · intro hc ha hj
    have hidle : ∀ alsa, backend_active bld.with_alsa alsa = false →
        main_x11 bld w alsa fuel L =
          (Exit.running, [entering_loop] ++ List.replicate fuel (Effect.sleep 1)) := by
      intro alsa hal
      simp [main_x11, hx, main_loop_idle bld w alsa hx hc hal fuel 0 L]
    have hm : main bld w cmdl fuel =
        (Exit.running,
          [Effect.log Level.INFO "Parsing cmd line options",
           Effect.log Level.INFO "Initialising Lua",
           Effect.log Level.INFO "Lua: Loading configuration file"] ++ tr ++
          ((if cmdl.has ["-a", "--alsa"] then [Effect.get_instance Backend.alsa] else []) ++
           (if cmdl.has ["-j", "--jack"] then [Effect.get_instance Backend.jack] else []) ++
           ([entering_loop] ++ List.replicate fuel (Effect.sleep 1)))) := by
      rw [main_without_help bld w cmdl fuel (by simp [hhelp])]
      simp only [main_lua, hcfg, main_backends]
      generalize cmdl.has ["-a", "--alsa"] = ra at *
      generalize cmdl.has ["-j", "--jack"] = rj at *
      have h1 := hidle none (by simp [backend_active])
      have h2 := hidle (some ⟨false⟩) (by simp [backend_active])
      cases ra <;> cases rj <;> simp_all [backend_section]
    rw [hm]
    refine ⟨rfl, ?_, ?_⟩
    · simp only [pcalls_append, hq.1, pcalls_replicate_sleep]
      cases cmdl.has ["-a", "--alsa"] <;> cases cmdl.has ["-j", "--jack"] <;>
        simp [pcalls, entering_loop]
    · intro b
      have hs := hq.2.2 b
      cases cmdl.has ["-a", "--alsa"] <;> cases cmdl.has ["-j", "--jack"] <;>
        simp [hs, entering_loop, List.mem_replicate]
  · intro hca hcj hra hrj
    have hm : main bld w cmdl (fuel + 1) =
        (Exit.exit 0,
          [Effect.log Level.INFO "Parsing cmd line options",
           Effect.log Level.INFO "Initialising Lua",
           Effect.log Level.INFO "Lua: Loading configuration file"] ++ tr ++
          [entering_loop,
           Effect.log Level.ERROR "no midi backend compiled into binary, nothing to do.",
           Effect.lua_close]) := by
      rw [main_with_backends bld w cmdl (fuel + 1) L tr hhelp hcfg (by simp [hra])
        (by simp [hrj]) (by simp [hx])]
      simp [hra, hrj, hx, hca, hcj, main_loop, alsa_step]
    rw [hm]
    refine ⟨rfl, ?_⟩
    simp [pcalls_append, hq.1, pcalls, entering_loop]

/-- C10 as amended, at two concrete inputs.  First: ALSA compiled in and
requested but opened as invalid; five iterations are five sleeps.  Second:
neither backend compiled in and none requested; `main` ends with
`exit( 0 )`. -/
theorem idle_loop_runs_forever_witness :
    main ⟨true, false, false⟩ (sample_world ["/home/u/.config/midi2input.lua"] false false)
        ⟨["-a"], []⟩ 5 =
      (Exit.running,
        [Effect.log Level.INFO "Parsing cmd line options",
         Effect.log Level.INFO "Initialising Lua",
         Effect.log Level.INFO "Lua: Loading configuration file",
         Effect.ifstream_open "~/.config/midi2input.lua",
         Effect.ifstream_open "/home/u/.config/midi2input.lua",
         Effect.loadfile "/home/u/.config/midi2input.lua",
         Effect.log Level.INFO "Using: /home/u/.config/midi2input.lua",
         Effect.get_instance Backend.alsa,
         entering_loop,
         Effect.sleep 1, Effect.sleep 1, Effect.sleep 1, Effect.sleep 1, Effect.sleep 1]) ∧
    (main ⟨false, false, false⟩ (sample_world ["/home/u/.config/midi2input.lua"] true true)
        ⟨["-v"], []⟩ 5).1 = Exit.exit 0 :=
  ⟨((idle_loop_runs_forever ⟨true, false, false⟩
      (sample_world ["/home/u/.config/midi2input.lua"] false false) ⟨["-a"], []⟩ 5
      _ _ (by decide) rfl rfl).1 rfl (Or.inr ⟨rfl, rfl⟩) (Or.inl (by decide))).1,
   congrArg Prod.fst
    ((idle_loop_runs_forever ⟨false, false, false⟩
      (sample_world ["/home/u/.config/midi2input.lua"] true true) ⟨["-v"], []⟩ 4
      _ _ (by decide) rfl rfl).2 rfl rfl (by decide) (by decide)).1⟩

/-! ## Properties of `lua_exec` -/

end Midi2Input
